import Mathlib

/-!
Shallow embedding of the WorkTrackerAI temporal-coordination core
(capture engine, analysis scheduler, on-demand segment planner), together
with theorems about the embedded operations.

Time is modelled as natural-number seconds since an epoch that falls on a
local midnight, so `(t / 3600) * 3600` is the Go `time.Date(..., t.Hour(), 0, 0, 0, ...)`
floor of `t` to the top of its clock hour, and `(t / 86400) * 86400` is the
start of `t`'s day.  All embedded functions are executable.
-/

namespace WorkTracker

/-- One capture record (`models.Screenshot`).  Only the `timestamp` field is
read by the operations verified here; the remaining Go fields (file path,
size, resolution, analyzed flag) are metadata that none of the embedded
control flow inspects. -/
structure Screenshot where
  timestamp : Nat
deriving DecidableEq, Repr

/-- One activity entry of a summary (`models.Activity`). -/
structure Activity where
  name : String
  durationMinutes : Int
  apps : List String
  category : String
deriving DecidableEq, Repr

/-- One persisted summary record (`models.WorkSummary`); the database `ID`
is omitted (it is assigned by the storage layer and never read by the
verified control flow).  The app-usage map is embedded as an association
list. -/
structure WorkSummary where
  startTime : Nat
  endTime : Nat
  summary : String
  activities : List Activity
  appUsage : List (String × Int)
  createdAt : Nat
deriving DecidableEq, Repr

/-- Work-schedule configuration (`models.WorkSchedule`). -/
structure WorkSchedule where
  startTime : String
  endTime : String
  workDays : List Int
  analysisInterval : Int
  enabled : Bool
deriving DecidableEq, Repr

/-- Capture configuration (`models.CaptureConfig`). -/
structure CaptureConfig where
  interval : Int
  selectedScreens : List Int
  quality : Int
  enabled : Bool
deriving DecidableEq, Repr

/-! ### Time-string parsing (`time.Parse("15:04", s)`)

Go's reference layout `"15:04"` accepts a 1- or 2-digit hour, a literal
colon and a 2-digit minute, and rejects hours ≥ 24 and minutes ≥ 60. -/

/-- Numeric value of a decimal digit character. -/
def digitVal (c : Char) : Nat := c.toNat - 48

/-- `parseHM s` models `time.Parse("15:04", s)`, returning the parsed
`(hour, minute)` pair or `none` on a format error. -/
def parseHM (s : String) : Option (Nat × Nat) :=
  match s.toList with
  | [h1, c, m1, m2] =>
    if c = ':' ∧ h1.isDigit ∧ m1.isDigit ∧ m2.isDigit then
      let hv := digitVal h1
      let mv := digitVal m1 * 10 + digitVal m2
      if hv < 24 ∧ mv < 60 then some (hv, mv) else none
    else none
  | [h1, h2, c, m1, m2] =>
    if c = ':' ∧ h1.isDigit ∧ h2.isDigit ∧ m1.isDigit ∧ m2.isDigit then
      let hv := digitVal h1 * 10 + digitVal h2
      let mv := digitVal m1 * 10 + digitVal m2
      if hv < 24 ∧ mv < 60 then some (hv, mv) else none
    else none
  | _ => none

/-! ### Schedule gate (`utils.TimeInRange`, `utils.IsDayInList`,
`capture.Engine.shouldCapture`)

`TimeInRange` receives the current time as seconds since today's midnight
(`now` in `[0, 86400)`); the parsed clock times are anchored to the same
day, and an end time that falls numerically before the start time is
shifted one day forward before the comparison, exactly as in the source. -/

/-- `utils.TimeInRange(startTime, endTime)` at clock time `now` (seconds
since today's midnight).  Returns `Except.error` on a parse failure. -/
def TimeInRange (startTime endTime : String) (now : Nat) : Except String Bool :=
  match parseHM startTime with
  | none => .error "invalid start time format"
  | some (sh, sm) =>
    match parseHM endTime with
    | none => .error "invalid end time format"
    | some (eh, em) =>
      let startToday := sh * 3600 + sm * 60
      let endParsed := eh * 3600 + em * 60
      let endToday := if endParsed < startToday then endParsed + 86400 else endParsed
      .ok (decide (startToday < now) && decide (now < endToday))

/-- `utils.IsDayInList(day, days)`. -/
def IsDayInList (day : Int) (days : List Int) : Bool :=
  days.any (fun d => d == day)

/-- `capture.Engine.shouldCapture`, evaluated at weekday `weekday`
(0 = Sunday … 6 = Saturday) and clock time `now` (seconds since today's
midnight). -/
def shouldCapture (schedule : WorkSchedule) (weekday : Int) (now : Nat) : Bool :=
  if !schedule.enabled then true
  else if !IsDayInList weekday schedule.workDays then false
  else
    match TimeInRange schedule.startTime schedule.endTime now with
    | .error _ => false
    | .ok inRange => inRange

/-! ### Capture engine state machine (`capture.Engine.Start/Stop`)

The engine's mutable state is its `running` flag and `lastCapture`
timestamp; the timer progression and the capture loop run outside the
state machine verified here.  `Start` and `Stop` return the error (if
any) together with the post-call state. -/

/-- The mutable state of `capture.Engine`. -/
structure EngineState where
  running : Bool
  lastCapture : Nat
deriving DecidableEq, Repr

/-- `capture.Engine.Start()`: rejected with a state-conflict error when
already running, rejected with a configuration error when capturing is
disabled in the configuration, otherwise transitions to running. -/
def engineStart (cfg : CaptureConfig) (e : EngineState) :
    Except String Unit × EngineState :=
  if e.running then (.error "capture engine already running", e)
  else if !cfg.enabled then (.error "capture is disabled in config", e)
  else (.ok (), { e with running := true })

/-- `capture.Engine.Stop()`: rejected with a state-conflict error when not
running, otherwise transitions to stopped. -/
def engineStop (e : EngineState) : Except String Unit × EngineState :=
  if !e.running then (.error "capture engine not running", e)
  else (.ok (), { e with running := false })

/-! ### On-demand segment planner (`server.handleAnalyzeNow`, steps 1–2)

The loop walks from the first capture timestamp to the last, cutting at
each clock-aligned interval boundary.  It is embedded with an explicit
fuel parameter; `lastTs - firstTs + 1` units of fuel always suffice
(each iteration advances the cursor by at least one second), which is the
termination argument for the source loop. -/

/-- One planned segment: a time span plus the flag telling whether any
capture record was found in it. -/
structure Segment where
  segStart : Nat
  segEnd : Nat
  hasData : Bool
deriving DecidableEq, Repr

/-- The "next interval boundary" computation of the planner loop: the next
multiple of `intervalSec` from the top of `cs`'s clock hour, replaced by
`cs + intervalSec` when that boundary does not lie strictly after `cs`. -/
def nextBoundary (intervalSec cs : Nat) : Nat :=
  let nextHour := (cs / 3600) * 3600 + intervalSec
  if nextHour ≤ cs then cs + intervalSec else nextHour

/-- The planner's per-segment data test: does any fetched record's
timestamp `t` satisfy `segStart ≤ t` and (`t` before or equal `segEnd`)?
Note both bounds are inclusive in the source. -/
def segHasData (shots : List Screenshot) (s e : Nat) : Bool :=
  shots.any (fun ss => decide (s ≤ ss.timestamp) && decide (ss.timestamp ≤ e))

/-- The `currentEnd` computation of the planner loop: the next boundary,
capped at `lastTs` when the boundary reaches or passes it. -/
def segEndAt (intervalSec lastTs cs : Nat) : Nat :=
  if lastTs ≤ nextBoundary intervalSec cs then lastTs else nextBoundary intervalSec cs

/-- The planner loop of `handleAnalyzeNow`, with cursor `cs` and explicit
fuel.  Each iteration emits `[cs, currentEnd]` with its data flag and
stops as soon as `currentEnd` reaches `lastTs`. -/
def planLoop (intervalSec : Nat) (shots : List Screenshot) (lastTs : Nat) :
    Nat → Nat → List Segment
  | 0, _ => []
  | fuel + 1, cs =>
    if lastTs ≤ segEndAt intervalSec lastTs cs then
      [⟨cs, segEndAt intervalSec lastTs cs,
        segHasData shots cs (segEndAt intervalSec lastTs cs)⟩]
    else
      ⟨cs, segEndAt intervalSec lastTs cs,
        segHasData shots cs (segEndAt intervalSec lastTs cs)⟩ ::
        planLoop intervalSec shots lastTs fuel (segEndAt intervalSec lastTs cs)

/-- The planner's effective interval in seconds: the configured minutes,
replaced by 60 when non-positive (`if intervalMinutes <= 0 { intervalMinutes = 60 }`). -/
def effectiveIntervalSec (analysisInterval : Int) : Nat :=
  (if analysisInterval ≤ 0 then 60 else analysisInterval).toNat * 60

/-- Steps 1–2 of `handleAnalyzeNow`: given the day's fetched capture
records (ordered by timestamp) and the configured analysis interval in
minutes, produce the day's segments. -/
def planSegments (analysisInterval : Int) (shots : List Screenshot) : List Segment :=
  match shots with
  | [] => []
  | first :: rest =>
    let intervalSec : Nat := effectiveIntervalSec analysisInterval
    let firstTs := first.timestamp
    let lastTs := ((first :: rest).getLast (List.cons_ne_nil _ _)).timestamp
    planLoop intervalSec shots lastTs (lastTs - firstTs + 1) firstTs

/-! ### Persistence collaborator (`storage.Manager`)

The summary table is embedded as a list of `WorkSummary` in insertion
order.  The SQL predicates are transcribed literally: the range query on
screenshots is inclusive on both bounds (`timestamp >= start AND
timestamp <= end`), and the summary existence check counts rows whose
`start_time` lies in the half-open window (`start_time >= start AND
start_time < end`). -/

/-- `storage.Manager.GetScreenshots(start, end)` over an in-memory record
list (the SQL `ORDER BY` is a hypothesis on the input list where it
matters). -/
def GetScreenshots (shots : List Screenshot) (s e : Nat) : List Screenshot :=
  shots.filter (fun ss => decide (s ≤ ss.timestamp) && decide (ss.timestamp ≤ e))

/-- `storage.Manager.HasWorkSummaryForRange(start, end)`: is there a
persisted summary whose `start_time` lies in `[start, end)`? -/
def HasWorkSummaryForRange (store : List WorkSummary) (s e : Nat) : Bool :=
  store.any (fun w => decide (s ≤ w.startTime) && decide (w.startTime < e))

/-- `storage.Manager.DeleteWorkSummariesForDate(date)`: remove every
summary whose `start_time` falls on `now`'s day. -/
def DeleteWorkSummariesForDate (store : List WorkSummary) (now : Nat) : List WorkSummary :=
  let startOfDay := (now / 86400) * 86400
  let endOfDay := startOfDay + 86400
  store.filter
    (fun w => !(decide (startOfDay ≤ w.startTime) && decide (w.startTime < endOfDay)))

/-! ### Analysis collaborator (`ai.Analyzer.AnalyzePeriod`)

The vision-model call together with response parsing is an external
collaborator; it is embedded as an oracle `llm` giving, per window, the
parsed summary payload (or `none` for a transient failure).  Persistence
failures of `SaveWorkSummary` are likewise injected through a `saveOk`
oracle.  `AnalyzePeriod` itself is embedded faithfully: it fails when the
window holds no capture records, otherwise consults the oracle, builds the
record with exactly the requested window as its `(startTime, endTime)`
(as `parseResponse` does) and persists it on success. -/

/-- Parsed payload of one model response (`summary`, `activities`,
`app_usage`). -/
structure SummaryData where
  summary : String
  activities : List Activity
  appUsage : List (String × Int)
deriving DecidableEq, Repr

/-- Outcomes of the external collaborators: the model call plus response
parsing, and the persistence layer's acceptance of a summary insert. -/
structure AnalysisEnv where
  llm : Nat → Nat → Option SummaryData
  saveOk : WorkSummary → Bool

/-- `ai.Analyzer.AnalyzePeriod(start, end)`: returns the produced record
(`none` on any failure) together with the store after the call. -/
def AnalyzePeriod (env : AnalysisEnv) (shots : List Screenshot) (now : Nat)
    (store : List WorkSummary) (s e : Nat) : Option WorkSummary × List WorkSummary :=
  if (GetScreenshots shots s e).isEmpty then (none, store)
  else
    match env.llm s e with
    | none => (none, store)
    | some d =>
      let w : WorkSummary := ⟨s, e, d.summary, d.activities, d.appUsage, now⟩
      if env.saveOk w then (some w, store ++ [w]) else (none, store)

/-! ### Analysis scheduler jobs (`scheduler.Scheduler`) -/

/-- `scheduler.workDaysToCron`: the cron weekday field derived from the
configured work days. -/
def workDaysToCron (workDays : List Int) : String :=
  if workDays.length = 0 then "*"
  else if workDays.length = 7 then "*"
  else String.intercalate "," (workDays.map toString)

/-- The `fmt.Sprintf("%d %d * * %s", minute, hour, weekDays)` cron string
shared by the daily-report and auto start/stop job registrations. -/
def mkCronExpr (minute hour : Nat) (weekDays : String) : String :=
  toString minute ++ " " ++ toString hour ++ " * * " ++ weekDays

/-- `scheduler.Scheduler.addDailyReportJob`: the cron expression it
registers (`none` when the configured end time does not parse, which the
source reports as a registration error). -/
def addDailyReportJob (schedule : WorkSchedule) : Option String :=
  match parseHM schedule.endTime with
  | none => none
  | some (eh, em) =>
    let reportMinuteOfDay := (eh * 60 + em + 1440 - 10) % 1440
    some (mkCronExpr (reportMinuteOfDay % 60) (reportMinuteOfDay / 60)
      (workDaysToCron schedule.workDays))

/-- `scheduler.Scheduler.addAutoStartCaptureJob`: the cron expression it
registers. -/
def addAutoStartCaptureJob (schedule : WorkSchedule) : Option String :=
  match parseHM schedule.startTime with
  | none => none
  | some (h, m) => some (mkCronExpr m h (workDaysToCron schedule.workDays))

/-- `scheduler.Scheduler.addAutoStopCaptureJob`: the cron expression it
registers. -/
def addAutoStopCaptureJob (schedule : WorkSchedule) : Option String :=
  match parseHM schedule.endTime with
  | none => none
  | some (h, m) => some (mkCronExpr m h (workDaysToCron schedule.workDays))

/-- `scheduler.Scheduler.runAnalysis` (the periodic analysis job): compute
the previous clock-hour window, skip when a summary already starts in it,
otherwise analyze and persist.  Returns the store after the job. -/
def runAnalysis (env : AnalysisEnv) (shots : List Screenshot)
    (store : List WorkSummary) (now : Nat) : List WorkSummary :=
  let currentHour := (now / 3600) * 3600
  let prevHour := currentHour - 3600
  if HasWorkSummaryForRange store prevHour currentHour then store
  else (AnalyzePeriod env shots now store prevHour currentHour).2

/-- `scheduler.Scheduler.runHourlyPreviousSegmentAnalysis` (the hourly
catch-up job).  Skips when schedule restrictions are disabled, when a
work-time string does not parse, when the previous-hour window is not
inside today's work window, when a summary already starts in the window,
or when the window holds no capture records; otherwise analyzes and
persists.  Returns the store after the job. -/
def runHourlyPreviousSegmentAnalysis (env : AnalysisEnv) (shots : List Screenshot)
    (schedule : WorkSchedule) (store : List WorkSummary) (now : Nat) : List WorkSummary :=
  if !schedule.enabled then store
  else
    match parseHM schedule.startTime with
    | none => store
    | some (sh, sm) =>
      match parseHM schedule.endTime with
      | none => store
      | some (eh, em) =>
        let startOfDay := (now / 86400) * 86400
        let workStart := startOfDay + sh * 3600 + sm * 60
        let workEnd := startOfDay + eh * 3600 + em * 60
        let prevEnd := (now / 3600) * 3600
        let prevStart := prevEnd - 3600
        if workEnd < prevEnd then store
        else if prevEnd < workStart || prevStart < workStart then store
        else if HasWorkSummaryForRange store prevStart prevEnd then store
        else if (GetScreenshots shots prevStart prevEnd).isEmpty then store
        else (AnalyzePeriod env shots now store prevStart prevEnd).2

/-- `scheduler.Scheduler.runDailyReport`: analyze today's full configured
work window with no existence check; on success the job logs the total of
the returned activities' durations (returned here as the second
component, `none` when the analysis failed).  A work-time string that does
not parse contributes `(0, 0)` (the Go zero `time.Time`), as in the
source. -/
def runDailyReport (env : AnalysisEnv) (shots : List Screenshot)
    (schedule : WorkSchedule) (store : List WorkSummary) (now : Nat) :
    List WorkSummary × Option Int :=
  let sp := (parseHM schedule.startTime).getD (0, 0)
  let ep := (parseHM schedule.endTime).getD (0, 0)
  let startOfDay := (now / 86400) * 86400
  let start := startOfDay + sp.1 * 3600 + sp.2 * 60
  let workEnd := startOfDay + ep.1 * 3600 + ep.2 * 60
  match AnalyzePeriod env shots now store start workEnd with
  | (none, st) => (st, none)
  | (some w, st) => (st, some ((w.activities.map (fun a => a.durationMinutes)).sum))

/-! ### On-demand regeneration (`server.handleAnalyzeNow`, steps 3–4) -/

/-- The placeholder record written for a segment with no capture data:
fixed sentinel text, empty activity and usage collections. -/
def emptyPlaceholder (seg : Segment) (now : Nat) : WorkSummary :=
  ⟨seg.segStart, seg.segEnd, "暂无截屏内容", [], [], now⟩

/-- Step 4 of `handleAnalyzeNow`: process the segments in order, writing a
placeholder for each data-less segment and invoking the analysis
collaborator for the rest; stop on the first persistence or collaborator
failure.  The `Bool` is `true` when every segment completed, `false` when
the operation aborted with an error response. -/
def analyzeSegments (env : AnalysisEnv) (shots : List Screenshot) (now : Nat) :
    List WorkSummary → List Segment → List WorkSummary × Bool
  | store, [] => (store, true)
  | store, seg :: rest =>
    if !seg.hasData then
      let w := emptyPlaceholder seg now
      if env.saveOk w then analyzeSegments env shots now (store ++ [w]) rest
      else (store, false)
    else
      match AnalyzePeriod env shots now store seg.segStart seg.segEnd with
      | (some _, store') => analyzeSegments env shots now store' rest
      | (none, store') => (store', false)

/-- `server.handleAnalyzeNow`: fetch today's records (given here as the
already-fetched `shots`), fail when empty, plan the segments, delete all
of today's summaries, then process the segments. -/
def handleAnalyzeNow (env : AnalysisEnv) (shots : List Screenshot)
    (analysisInterval : Int) (now : Nat) (store : List WorkSummary) :
    List WorkSummary × Bool :=
  if shots.isEmpty then (store, false)
  else
    let segments := planSegments analysisInterval shots
    analyzeSegments env shots now (DeleteWorkSummariesForDate store now) segments

/-! ### Helper notions for the partition law -/

/-- `chainedFrom c segs` holds when the first segment starts at `c` and
every following segment starts exactly where its predecessor ended. -/
def chainedFrom (c : Nat) : List Segment → Bool
  | [] => true
  | s :: rest => (s.segStart == c) && chainedFrom s.segEnd rest

/-- The end bound of the final segment, when any. -/
def lastSegEnd : List Segment → Option Nat
  | [] => none
  | [s] => some s.segEnd
  | _ :: s :: rest => lastSegEnd (s :: rest)

lemma effectiveIntervalSec_pos (analysisInterval : Int) :
    0 < effectiveIntervalSec analysisInterval := by
  unfold effectiveIntervalSec
  split
  · decide
  · next h =>
    have : (0 : Int) < analysisInterval := by omega
    have : 0 < analysisInterval.toNat := by omega
    omega

lemma lt_nextBoundary (iv : Nat) (hiv : 0 < iv) (cs : Nat) : cs < nextBoundary iv cs := by
  simp only [nextBoundary]
  split <;> omega

lemma segEndAt_le (iv lastTs cs : Nat) : segEndAt iv lastTs cs ≤ lastTs := by
  simp only [segEndAt]
  split <;> omega

lemma lt_segEndAt (iv : Nat) (hiv : 0 < iv) (lastTs cs : Nat) (h : cs < lastTs) :
    cs < segEndAt iv lastTs cs := by
  have := lt_nextBoundary iv hiv cs
  simp only [segEndAt]
  split <;> omega

lemma segEndAt_eq_lastTs (iv lastTs cs : Nat) (h : lastTs ≤ segEndAt iv lastTs cs) :
    segEndAt iv lastTs cs = lastTs := by
  have := segEndAt_le iv lastTs cs
  omega

lemma segEndAt_of_not_le (iv lastTs cs : Nat) (h : ¬ lastTs ≤ segEndAt iv lastTs cs) :
    segEndAt iv lastTs cs = nextBoundary iv cs ∧ nextBoundary iv cs < lastTs := by
  by_cases hb : lastTs ≤ nextBoundary iv cs
  · exact absurd (by simp [segEndAt, hb]) h
  · exact ⟨by simp [segEndAt, hb], by omega⟩

lemma chainedFrom_head {c : Nat} {s : Segment} {rest : List Segment}
    (h : chainedFrom c (s :: rest) = true) : s.segStart = c := by
  simp only [chainedFrom, Bool.and_eq_true, beq_iff_eq] at h
  exact h.1

lemma planLoop_hasData (iv : Nat) (shots : List Screenshot) (lastTs : Nat) :
    ∀ fuel cs, ∀ s ∈ planLoop iv shots lastTs fuel cs,
      s.hasData = segHasData shots s.segStart s.segEnd := by
  intro fuel
  induction fuel with
  | zero => intro cs s h; simp [planLoop] at h
  | succ n ih =>
    intro cs s h
    simp only [planLoop] at h
    split at h
    · simp only [List.mem_singleton] at h
      subst h; rfl
    · rcases List.mem_cons.mp h with h1 | h2
      · subst h1; rfl
      · exact ih _ _ h2

lemma planLoop_partition (iv : Nat) (hiv : 0 < iv) (shots : List Screenshot)
    (lastTs : Nat) :
    ∀ fuel cs, cs ≤ lastTs → lastTs - cs < fuel →
      chainedFrom cs (planLoop iv shots lastTs fuel cs) = true ∧
      lastSegEnd (planLoop iv shots lastTs fuel cs) = some lastTs ∧
      planLoop iv shots lastTs fuel cs ≠ [] ∧
      (∀ s ∈ planLoop iv shots lastTs fuel cs, cs < lastTs → s.segStart < s.segEnd) := by
  intro fuel
  induction fuel with
  | zero => intro cs hcs hfuel; omega
  | succ n ih =>
    intro cs hcs hfuel
    simp only [planLoop]
    by_cases hend : lastTs ≤ segEndAt iv lastTs cs
    · rw [if_pos hend]
      have hce := segEndAt_eq_lastTs iv lastTs cs hend
      refine ⟨?_, ?_, ?_, ?_⟩
      · simp [chainedFrom]
      · simp [lastSegEnd, hce]
      · simp
      · intro s hs hlt
        simp only [List.mem_singleton] at hs
        subst hs
        simpa [hce] using hlt
    · rw [if_neg hend]
      obtain ⟨hse, hnblt⟩ := segEndAt_of_not_le iv lastTs cs hend
      have hnb := lt_nextBoundary iv hiv cs
      have hlt : segEndAt iv lastTs cs < lastTs := by omega
      have hcs' : cs < segEndAt iv lastTs cs := by omega
      have hrec := ih (segEndAt iv lastTs cs) (le_of_lt hlt) (by omega)
      obtain ⟨hchain, hlast, hne, hbounds⟩ := hrec
      refine ⟨?_, ?_, ?_, ?_⟩
      · simp only [chainedFrom, beq_self_eq_true, Bool.true_and]
        exact hchain
      · match htl : planLoop iv shots lastTs n (segEndAt iv lastTs cs) with
        | [] => exact absurd htl hne
        | t :: ts =>
          rw [htl] at hlast
          simpa [lastSegEnd] using hlast
      · simp
      · intro s hs _
        rcases List.mem_cons.mp hs with h1 | h2
        · subst h1; exact hcs'
        · exact hbounds s h2 hlt

lemma planLoop_single (iv : Nat) (shots : List Screenshot) (lastTs fuel cs : Nat)
    (h : lastTs ≤ nextBoundary iv cs) :
    planLoop iv shots lastTs (fuel + 1) cs =
      [⟨cs, lastTs, segHasData shots cs lastTs⟩] := by
  have hce : segEndAt iv lastTs cs = lastTs := by
    simp only [segEndAt]
    rw [if_pos h]
  simp only [planLoop, hce, if_pos (le_refl lastTs)]

lemma sorted_head_le_getLast (shots : List Screenshot) (hne : shots ≠ [])
    (hsorted : List.Sorted (fun a b : Screenshot => a.timestamp ≤ b.timestamp) shots) :
    (shots.head hne).timestamp ≤ (shots.getLast hne).timestamp := by
  match shots with
  | [a] => simp
  | a :: b :: t =>
    have hmem : (a :: b :: t).getLast (by simp) ∈ b :: t := by
      rw [List.getLast_cons (by simp)]
      exact List.getLast_mem _
    exact (List.sorted_cons.mp hsorted).1 _ hmem

/-- C1: for a non-empty, timestamp-ordered day of capture records, the
planner's segments form an ordered partition: the list is non-empty, its
first segment starts at the first record's timestamp, every following
segment starts exactly where its predecessor ended, the final segment ends
at the last record's timestamp (equivalently, the loop exits through its
break rather than by exhausting the fuel bound, which is the termination
argument), a day fitting inside one interval gives exactly one segment,
and when the day is not degenerate every segment is non-empty — in
particular a last capture sitting exactly on a boundary ends the partition
there with no further zero-length segment. -/
theorem planSegments_ordered_partition (analysisInterval : Int)
    (shots : List Screenshot) (hne : shots ≠ [])
    (hsorted : List.Sorted (fun a b : Screenshot => a.timestamp ≤ b.timestamp) shots) :
    planSegments analysisInterval shots ≠ [] ∧
    (planSegments analysisInterval shots).head?.map Segment.segStart =
      some (shots.head hne).timestamp ∧
    chainedFrom (shots.head hne).timestamp (planSegments analysisInterval shots) = true ∧
    lastSegEnd (planSegments analysisInterval shots) =
      some (shots.getLast hne).timestamp ∧
    ((shots.getLast hne).timestamp ≤
        nextBoundary (effectiveIntervalSec analysisInterval) (shots.head hne).timestamp →
      (planSegments analysisInterval shots).length = 1) ∧
    ((shots.head hne).timestamp < (shots.getLast hne).timestamp →
      ∀ s ∈ planSegments analysisInterval shots, s.segStart < s.segEnd) := by
  match shots with
  | a :: rest =>
    have hle := sorted_head_le_getLast (a :: rest) hne hsorted
    simp only [List.head_cons] at hle ⊢
    simp only [planSegments]
    have hiv := effectiveIntervalSec_pos analysisInterval
    obtain ⟨hchain, hlast, hnil, hbounds⟩ :=
      planLoop_partition (effectiveIntervalSec analysisInterval) hiv (a :: rest)
        (((a :: rest).getLast (List.cons_ne_nil _ _)).timestamp)
        (((a :: rest).getLast (List.cons_ne_nil _ _)).timestamp - a.timestamp + 1)
        a.timestamp hle (by omega)
    refine ⟨hnil, ?_, hchain, hlast, ?_, ?_⟩
    · match hpl : planLoop (effectiveIntervalSec analysisInterval) (a :: rest)
          (((a :: rest).getLast (List.cons_ne_nil _ _)).timestamp)
          (((a :: rest).getLast (List.cons_ne_nil _ _)).timestamp - a.timestamp + 1)
          a.timestamp with
      | [] => exact absurd hpl hnil
      | s :: segs =>
        rw [hpl] at hchain
        simp [chainedFrom_head hchain]
    · intro hone
      rw [planLoop_single _ _ _ _ _ hone]
      rfl
    · intro hlt s hs
      exact hbounds s hs hlt

/-- Witness for `planSegments_ordered_partition`: the documented scenario
(captures at 09:03, 09:47, 10:12, 11:58 on day 1 with a 60-minute
interval), plus the one-interval day (captures at 09:03 and 09:47 only)
yielding exactly one segment. -/
theorem planSegments_ordered_partition_witness :
    (planSegments 60 [⟨118980⟩, ⟨121620⟩, ⟨123120⟩, ⟨129480⟩] ≠ [] ∧
      (planSegments 60 [⟨118980⟩, ⟨121620⟩, ⟨123120⟩, ⟨129480⟩]).head?.map
        Segment.segStart = some 118980 ∧
      chainedFrom 118980 (planSegments 60 [⟨118980⟩, ⟨121620⟩, ⟨123120⟩, ⟨129480⟩]) =
        true ∧
      lastSegEnd (planSegments 60 [⟨118980⟩, ⟨121620⟩, ⟨123120⟩, ⟨129480⟩]) =
        some 129480 ∧
      (129480 ≤ nextBoundary (effectiveIntervalSec 60) 118980 →
        (planSegments 60 [⟨118980⟩, ⟨121620⟩, ⟨123120⟩, ⟨129480⟩]).length = 1) ∧
      (118980 < 129480 →
        ∀ s ∈ planSegments 60 [⟨118980⟩, ⟨121620⟩, ⟨123120⟩, ⟨129480⟩],
          s.segStart < s.segEnd)) ∧
    (planSegments 60 [⟨118980⟩, ⟨121620⟩]).length = 1 :=
  ⟨planSegments_ordered_partition 60 [⟨118980⟩, ⟨121620⟩, ⟨123120⟩, ⟨129480⟩]
      (by decide) (by decide),
    (planSegments_ordered_partition 60 [⟨118980⟩, ⟨121620⟩]
      (by decide) (by decide)).2.2.2.2.1 (by decide)⟩

/-- C2 counterexample: the planner marks a segment as having data using a
closed interval, not the half-open interval of the claim, and the
divergence is not confined to the final segment.  With captures at 09:30,
11:00 and 11:45 (day 1) and a 60-minute interval the partition is
`[09:30,10:00]`, `[10:00,11:00]`, `[11:00,11:45]`; the middle segment —
an interior one, followed by a further segment — is marked
`hasData = true` solely because the 11:00 record sits exactly on its end
boundary, yet no fetched record's timestamp lies in the half-open
interval `[10:00, 11:00)` (second conjunct), so under the claim it would
have `hasData = false` and receive a placeholder instead of an analysis
call. -/
theorem planSegments_hasData_halfopen_cex :
    planSegments 60 [⟨120600⟩, ⟨126000⟩, ⟨128700⟩] =
      [⟨120600, 122400, true⟩, ⟨122400, 126000, true⟩,
        ⟨126000, 128700, true⟩] ∧
    ([(⟨120600⟩ : Screenshot), ⟨126000⟩, ⟨128700⟩].all
      (fun ss => !(decide (122400 ≤ ss.timestamp) && decide (ss.timestamp < 126000))))
      = true := by
  decide

/-- C2 (amended): a planned segment has `hasData = true` exactly when some
fetched record's timestamp `t` satisfies `segStart ≤ t ≤ segEnd` — the
closed interval, so a record sitting exactly on the segment's end bound
(an interval boundary belonging to the next segment under the half-open
reading) also counts.  The original claim's "if" direction survives: a
record in the half-open interval still forces `hasData = true`; only the
"only if" direction fails, at end-boundary hits. -/
theorem planSegments_hasData_closed_interval (analysisInterval : Int)
    (shots : List Screenshot) (s : Segment)
    (hs : s ∈ planSegments analysisInterval shots) :
    (s.hasData = true ↔
      ∃ ss ∈ shots, s.segStart ≤ ss.timestamp ∧ ss.timestamp ≤ s.segEnd) ∧
    ((∃ ss ∈ shots, s.segStart ≤ ss.timestamp ∧ ss.timestamp < s.segEnd) →
      s.hasData = true) := by
  have hd : s.hasData = segHasData shots s.segStart s.segEnd := by
    match shots with
    | [] => simp [planSegments] at hs
    | a :: rest =>
      simp only [planSegments] at hs
      exact planLoop_hasData _ _ _ _ _ s hs
  have hiff : s.hasData = true ↔
      ∃ ss ∈ shots, s.segStart ≤ ss.timestamp ∧ ss.timestamp ≤ s.segEnd := by
    rw [hd]
    simp [segHasData, List.any_eq_true]
  refine ⟨hiff, ?_⟩
  rintro ⟨ss, hmem, hlo, hhi⟩
  exact hiff.mpr ⟨ss, hmem, hlo, le_of_lt hhi⟩

/-- Witness for `planSegments_hasData_closed_interval` at the interior
boundary-hit segment of the counterexample input: its flag is true, the
closed interval holds the 11:00 record, and the half-open direction is
exercised on the first segment, which contains 09:30 strictly inside. -/
theorem planSegments_hasData_closed_interval_witness :
    ((⟨122400, 126000, true⟩ : Segment) ∈
        planSegments 60 [⟨120600⟩, ⟨126000⟩, ⟨128700⟩] ∧
      (⟨120600, 122400, true⟩ : Segment) ∈
        planSegments 60 [⟨120600⟩, ⟨126000⟩, ⟨128700⟩]) ∧
    ((true = true) ↔ ∃ ss ∈ [(⟨120600⟩ : Screenshot), ⟨126000⟩, ⟨128700⟩],
      122400 ≤ ss.timestamp ∧ ss.timestamp ≤ 126000) ∧
    ((∃ ss ∈ [(⟨120600⟩ : Screenshot), ⟨126000⟩, ⟨128700⟩],
      120600 ≤ ss.timestamp ∧ ss.timestamp < 122400) → true = true) :=
  ⟨⟨by decide, by decide⟩,
    (planSegments_hasData_closed_interval 60 [⟨120600⟩, ⟨126000⟩, ⟨128700⟩]
      ⟨122400, 126000, true⟩ (by decide)).1,
    (planSegments_hasData_closed_interval 60 [⟨120600⟩, ⟨126000⟩, ⟨128700⟩]
      ⟨120600, 122400, true⟩ (by decide)).2⟩

/-- C4 counterexample: with schedule restrictions enabled, work days
Monday–Friday, start `"09:00"`, end `"18:00"` and a Monday query at
exactly 09:00:00, the claimed half-open interval `[startTime, endTime)`
contains the query instant (second conjunct), yet the gate returns false:
the source compares strictly after the start time. -/
theorem shouldCapture_start_instant_cex :
    shouldCapture ⟨"09:00", "18:00", [1, 2, 3, 4, 5], 60, true⟩ 1 32400 = false ∧
    (decide (32400 ≤ 32400) && decide (32400 < 64800)) = true := by
  decide

/-- C4 (amended): the capture gate's schedule component: for
`enabled = false` it returns true regardless of time or weekday; otherwise
(for parseable work times) it returns true exactly when today's weekday is
in `workDays` and the current wall-clock time lies strictly inside the
open interval `(startTime, endTime)` — the start instant itself excluded —
where an end time numerically earlier than the start time is shifted +24h
before the comparison (midnight-spanning), so with start `"22:00"`, end
`"02:00"` a query at 23:59 is in range and a query at 02:01 is not. -/
theorem shouldCapture_characterization (schedule : WorkSchedule) (weekday : Int)
    (now sh sm eh em : Nat)
    (hs : parseHM schedule.startTime = some (sh, sm))
    (he : parseHM schedule.endTime = some (eh, em)) :
    (schedule.enabled = false → shouldCapture schedule weekday now = true) ∧
    (schedule.enabled = true →
      (shouldCapture schedule weekday now = true ↔
        IsDayInList weekday schedule.workDays = true ∧
        sh * 3600 + sm * 60 < now ∧
        now < (if eh * 3600 + em * 60 < sh * 3600 + sm * 60
               then eh * 3600 + em * 60 + 86400
               else eh * 3600 + em * 60))) := by
  constructor
  · intro hoff
    simp [shouldCapture, hoff]
  · intro hon
    simp only [shouldCapture, TimeInRange, hs, he, hon, Bool.not_true,
      Bool.false_eq_true, if_false]
    by_cases hday : IsDayInList weekday schedule.workDays
    · simp [hday]
    · simp [hday]

/-- Witness for `shouldCapture_characterization`: the midnight-spanning
schedule `start="22:00", end="02:00"` queried on a Monday at 23:59. -/
theorem shouldCapture_characterization_witness :
    ((⟨"22:00", "02:00", [1], 60, true⟩ : WorkSchedule).enabled = false →
      shouldCapture ⟨"22:00", "02:00", [1], 60, true⟩ 1 86340 = true) ∧
    ((⟨"22:00", "02:00", [1], 60, true⟩ : WorkSchedule).enabled = true →
      (shouldCapture ⟨"22:00", "02:00", [1], 60, true⟩ 1 86340 = true ↔
        IsDayInList 1 [1] = true ∧
        22 * 3600 + 0 * 60 < 86340 ∧
        86340 < (if 2 * 3600 + 0 * 60 < 22 * 3600 + 0 * 60
                 then 2 * 3600 + 0 * 60 + 86400
                 else 2 * 3600 + 0 * 60))) :=
  shouldCapture_characterization ⟨"22:00", "02:00", [1], 60, true⟩ 1 86340 22 0 2 0
    (by decide) (by decide)

/-- C6: state-conflict errors have no side effect: `Start()` on a running
engine and `Stop()` on a stopped engine return an error and leave the
state untouched; in particular after a successful `Start()` a second
`Start()` in a row errors, the engine stays running, and `lastCapture` is
unaffected by the rejected call. -/
theorem engine_state_conflict (cfg : CaptureConfig) (er es e1 : EngineState)
    (hrun : er.running = true) (hstop : es.running = false)
    (hok : (engineStart cfg e1).1 = .ok ()) :
    engineStart cfg er = (.error "capture engine already running", er) ∧
    engineStop es = (.error "capture engine not running", es) ∧
    (engineStart cfg e1).2.running = true ∧
    engineStart cfg (engineStart cfg e1).2 =
      (.error "capture engine already running", (engineStart cfg e1).2) ∧
    (engineStart cfg e1).2.lastCapture = e1.lastCapture := by
  have he1 : e1.running = false := by
    by_cases h : e1.running
    · simp [engineStart, h] at hok
    · simpa using h
  have hcfg : cfg.enabled = true := by
    by_cases h : cfg.enabled
    · simpa using h
    · simp [engineStart, he1, h] at hok
  refine ⟨?_, ?_, ?_, ?_, ?_⟩
  · simp [engineStart, hrun]
  · simp [engineStop, hstop]
  · simp [engineStart, he1, hcfg]
  · simp [engineStart, he1, hcfg]
  · simp [engineStart, he1, hcfg]

/-- Witness for `engine_state_conflict`: a concrete enabled configuration,
a running engine, a stopped engine and a fresh engine started twice. -/
theorem engine_state_conflict_witness :
    ((⟨true, 5⟩ : EngineState).running = true ∧
     (⟨false, 7⟩ : EngineState).running = false ∧
     (engineStart ⟨3, [0], 75, true⟩ ⟨false, 9⟩).1 = .ok ()) ∧
    (engineStart ⟨3, [0], 75, true⟩ ⟨true, 5⟩ =
        (.error "capture engine already running", ⟨true, 5⟩) ∧
      engineStop ⟨false, 7⟩ = (.error "capture engine not running", ⟨false, 7⟩) ∧
      (engineStart ⟨3, [0], 75, true⟩ ⟨false, 9⟩).2.running = true ∧
      engineStart ⟨3, [0], 75, true⟩ (engineStart ⟨3, [0], 75, true⟩ ⟨false, 9⟩).2 =
        (.error "capture engine already running",
          (engineStart ⟨3, [0], 75, true⟩ ⟨false, 9⟩).2) ∧
      (engineStart ⟨3, [0], 75, true⟩ ⟨false, 9⟩).2.lastCapture =
        (⟨false, 9⟩ : EngineState).lastCapture) :=
  ⟨⟨rfl, rfl, rfl⟩,
    engine_state_conflict ⟨3, [0], 75, true⟩ ⟨true, 5⟩ ⟨false, 7⟩ ⟨false, 9⟩
      rfl rfl rfl⟩

/-- C9: `Start()` has a second failure mode: with the capture
configuration's `Enabled` flag false, `Start()` on a stopped engine is
rejected with an error and the engine stays stopped (no state change). -/
theorem engineStart_disabled (cfg : CaptureConfig) (e : EngineState)
    (hdis : cfg.enabled = false) (hstop : e.running = false) :
    engineStart cfg e = (.error "capture is disabled in config", e) := by
  simp [engineStart, hdis, hstop]

/-- Witness for `engineStart_disabled`. -/
theorem engineStart_disabled_witness :
    ((⟨3, [0], 75, false⟩ : CaptureConfig).enabled = false ∧
      (⟨false, 4⟩ : EngineState).running = false) ∧
    engineStart ⟨3, [0], 75, false⟩ ⟨false, 4⟩ =
      (.error "capture is disabled in config", ⟨false, 4⟩) :=
  ⟨⟨rfl, rfl⟩, engineStart_disabled ⟨3, [0], 75, false⟩ ⟨false, 4⟩ rfl rfl⟩

/-- C10: for an empty `workDays` list the cron weekday-field derivation
returns `"*"` (every day), so the daily-report, auto-start-capture and
auto-stop-capture jobs of a schedule with no configured work days are
registered with an all-weekdays cron expression rather than one that
never fires. -/
theorem workDaysToCron_empty_all_days (schedule : WorkSchedule) (sh sm eh em : Nat)
    (hdays : schedule.workDays = [])
    (hs : parseHM schedule.startTime = some (sh, sm))
    (he : parseHM schedule.endTime = some (eh, em)) :
    workDaysToCron ([] : List Int) = "*" ∧
    addDailyReportJob schedule =
      some (mkCronExpr ((eh * 60 + em + 1440 - 10) % 1440 % 60)
        ((eh * 60 + em + 1440 - 10) % 1440 / 60) "*") ∧
    addAutoStartCaptureJob schedule = some (mkCronExpr sm sh "*") ∧
    addAutoStopCaptureJob schedule = some (mkCronExpr em eh "*") := by
  refine ⟨rfl, ?_, ?_, ?_⟩
  · simp [addDailyReportJob, he, workDaysToCron, hdays]
  · simp [addAutoStartCaptureJob, hs, workDaysToCron, hdays]
  · simp [addAutoStopCaptureJob, he, workDaysToCron, hdays]

/-- Witness for `workDaysToCron_empty_all_days` on a `09:00`–`18:00`
schedule with no configured work days. -/
theorem workDaysToCron_empty_all_days_witness :
    ((⟨"09:00", "18:00", [], 60, true⟩ : WorkSchedule).workDays = [] ∧
      parseHM "09:00" = some (9, 0) ∧ parseHM "18:00" = some (18, 0)) ∧
    (workDaysToCron ([] : List Int) = "*" ∧
      addDailyReportJob ⟨"09:00", "18:00", [], 60, true⟩ =
        some (mkCronExpr ((18 * 60 + 0 + 1440 - 10) % 1440 % 60)
          ((18 * 60 + 0 + 1440 - 10) % 1440 / 60) "*") ∧
      addAutoStartCaptureJob ⟨"09:00", "18:00", [], 60, true⟩ =
        some (mkCronExpr 0 9 "*") ∧
      addAutoStopCaptureJob ⟨"09:00", "18:00", [], 60, true⟩ =
        some (mkCronExpr 0 18 "*")) :=
  ⟨⟨rfl, by decide, by decide⟩,
    workDaysToCron_empty_all_days ⟨"09:00", "18:00", [], 60, true⟩ 9 0 18 0
      rfl (by decide) (by decide)⟩

/-- C8: the daily report job is registered at `workEnd − 10` minutes on
the configured work days; it analyzes today's full configured work window
with no prior existence check — the stated behavior below holds for every
store, including one already holding a summary for that exact window —
and the aggregate duration it logs equals the sum of the
`durationMinutes` of all activities of the returned summary. -/
theorem runDailyReport_spec (env : AnalysisEnv) (shots : List Screenshot)
    (schedule : WorkSchedule) (store : List WorkSummary) (now sh sm eh em : Nat)
    (d : SummaryData)
    (hs : parseHM schedule.startTime = some (sh, sm))
    (he : parseHM schedule.endTime = some (eh, em))
    (hcap : (GetScreenshots shots ((now / 86400) * 86400 + sh * 3600 + sm * 60)
      ((now / 86400) * 86400 + eh * 3600 + em * 60)).isEmpty = false)
    (hllm : env.llm ((now / 86400) * 86400 + sh * 3600 + sm * 60)
      ((now / 86400) * 86400 + eh * 3600 + em * 60) = some d)
    (hsave : env.saveOk ⟨(now / 86400) * 86400 + sh * 3600 + sm * 60,
      (now / 86400) * 86400 + eh * 3600 + em * 60,
      d.summary, d.activities, d.appUsage, now⟩ = true) :
    addDailyReportJob schedule =
      some (mkCronExpr ((eh * 60 + em + 1440 - 10) % 1440 % 60)
        ((eh * 60 + em + 1440 - 10) % 1440 / 60)
        (workDaysToCron schedule.workDays)) ∧
    runDailyReport env shots schedule store now =
      (store ++ [⟨(now / 86400) * 86400 + sh * 3600 + sm * 60,
        (now / 86400) * 86400 + eh * 3600 + em * 60,
        d.summary, d.activities, d.appUsage, now⟩],
       some ((d.activities.map (fun a => a.durationMinutes)).sum)) := by
  constructor
  · simp [addDailyReportJob, he]
  · simp [runDailyReport, hs, he, AnalyzePeriod, hcap, hllm, hsave]

/-- Witness for `runDailyReport_spec`: a Monday-to-Friday `09:00`–`18:00`
schedule, one capture inside the window, a model answer with two
activities (45 and 15 minutes), and a store that already holds a summary
for the exact window — the job still analyzes and logs 60 minutes. -/
theorem runDailyReport_spec_witness :
    ((GetScreenshots [⟨119000⟩] 118800 151200).isEmpty = false) ∧
    (addDailyReportJob ⟨"09:00", "18:00", [1, 2, 3, 4, 5], 60, true⟩ =
      some (mkCronExpr ((18 * 60 + 0 + 1440 - 10) % 1440 % 60)
        ((18 * 60 + 0 + 1440 - 10) % 1440 / 60)
        (workDaysToCron [1, 2, 3, 4, 5])) ∧
    runDailyReport
      ⟨fun _ _ => some ⟨"ok", [⟨"dev", 45, ["code"], "Dev"⟩,
        ⟨"read", 15, [], "Study"⟩], [("code", 40)]⟩, fun _ => true⟩
      [⟨119000⟩] ⟨"09:00", "18:00", [1, 2, 3, 4, 5], 60, true⟩
      [⟨118800, 151200, "old", [], [], 0⟩] 150600 =
      ([⟨118800, 151200, "old", [], [], 0⟩] ++
        [⟨118800, 151200, "ok", [⟨"dev", 45, ["code"], "Dev"⟩,
          ⟨"read", 15, [], "Study"⟩], [("code", 40)], 150600⟩],
       some (([(⟨"dev", 45, ["code"], "Dev"⟩ : Activity),
         ⟨"read", 15, [], "Study"⟩].map (fun a => a.durationMinutes)).sum))) :=
  ⟨by decide,
    runDailyReport_spec
      ⟨fun _ _ => some ⟨"ok", [⟨"dev", 45, ["code"], "Dev"⟩,
        ⟨"read", 15, [], "Study"⟩], [("code", 40)]⟩, fun _ => true⟩
      [⟨119000⟩] ⟨"09:00", "18:00", [1, 2, 3, 4, 5], 60, true⟩
      [⟨118800, 151200, "old", [], [], 0⟩] 150600 9 0 18 0
      ⟨"ok", [⟨"dev", 45, ["code"], "Dev"⟩, ⟨"read", 15, [], "Study"⟩],
        [("code", 40)]⟩
      (by decide) (by decide) (by decide) rfl rfl⟩

lemma runHourly_skip_or_append (env : AnalysisEnv) (shots : List Screenshot)
    (schedule : WorkSchedule) (store : List WorkSummary) (now : Nat) :
    runHourlyPreviousSegmentAnalysis env shots schedule store now = store ∨
    (HasWorkSummaryForRange store ((now / 3600) * 3600 - 3600)
        ((now / 3600) * 3600) = false ∧
      runHourlyPreviousSegmentAnalysis env shots schedule store now =
        (AnalyzePeriod env shots now store ((now / 3600) * 3600 - 3600)
          ((now / 3600) * 3600)).2) := by
  simp only [runHourlyPreviousSegmentAnalysis]
  split
  · exact Or.inl rfl
  split
  · exact Or.inl rfl
  split
  · exact Or.inl rfl
  split
  · exact Or.inl rfl
  split
  · exact Or.inl rfl
  split
  · exact Or.inl rfl
  split
  · exact Or.inl rfl
  next hsum _ =>
    exact Or.inr ⟨by simpa using hsum, rfl⟩

/-- C3 counterexample: the implemented existence check is "does any
summary *start* in `[start, end)`", not "does a summary cover this exact
window".  At 08:05 on day 1 (previous-hour window `[111600, 115200)`), a
store holding one stray summary `[112000, 112600)` — which starts inside
the window but does not cover it — makes both jobs skip in either order,
so zero (not exactly one) summaries for the exact window are persisted,
although the collaborators would succeed, captures exist in the window,
and no record covering the exact window was present. -/
theorem periodic_catchup_exact_window_cex :
    (runHourlyPreviousSegmentAnalysis
        ⟨fun _ _ => some ⟨"s", [], []⟩, fun _ => true⟩ [⟨112000⟩]
        ⟨"07:00", "18:00", [1], 60, true⟩
        (runAnalysis ⟨fun _ _ => some ⟨"s", [], []⟩, fun _ => true⟩ [⟨112000⟩]
          [⟨112000, 112600, "stray", [], [], 0⟩] 115500)
        115500).countP
      (fun w : WorkSummary =>
        decide (w.startTime = 111600) && decide (w.endTime = 115200)) = 0 ∧
    (runAnalysis ⟨fun _ _ => some ⟨"s", [], []⟩, fun _ => true⟩ [⟨112000⟩]
        (runHourlyPreviousSegmentAnalysis
          ⟨fun _ _ => some ⟨"s", [], []⟩, fun _ => true⟩ [⟨112000⟩]
          ⟨"07:00", "18:00", [1], 60, true⟩
          [⟨112000, 112600, "stray", [], [], 0⟩] 115500)
        115500).countP
      (fun w : WorkSummary =>
        decide (w.startTime = 111600) && decide (w.endTime = 115200)) = 0 ∧
    ([(⟨112000, 112600, "stray", [], [], 0⟩ : WorkSummary)].countP
      (fun w : WorkSummary =>
        decide (w.startTime = 111600) && decide (w.endTime = 115200)) = 0) ∧
    (GetScreenshots [⟨112000⟩] 111600 115200).isEmpty = false := by
  decide

/-- C3 (amended): the idempotency predicate both jobs consult is "does any
persisted summary start within `[start, end)`" (not exact-window
coverage).  Starting from a store in which no summary starts in the
previous-hour window, with capture records present in the window and a
successful analysis collaborator, invoking the periodic job and the
hourly catch-up job in either order yields the same store, holding
exactly one summary whose window is exactly the previous clock hour:
whichever job runs second finds the first job's record starting in the
window and skips. -/
theorem periodic_catchup_idempotent (env : AnalysisEnv) (shots : List Screenshot)
    (schedule : WorkSchedule) (store : List WorkSummary) (now : Nat)
    (d : SummaryData)
    (hnow : 3600 ≤ now)
    (hno : HasWorkSummaryForRange store ((now / 3600) * 3600 - 3600)
      ((now / 3600) * 3600) = false)
    (hcap : (GetScreenshots shots ((now / 3600) * 3600 - 3600)
      ((now / 3600) * 3600)).isEmpty = false)
    (hllm : env.llm ((now / 3600) * 3600 - 3600) ((now / 3600) * 3600) = some d)
    (hsave : env.saveOk ⟨(now / 3600) * 3600 - 3600, (now / 3600) * 3600,
      d.summary, d.activities, d.appUsage, now⟩ = true) :
    runHourlyPreviousSegmentAnalysis env shots schedule
        (runAnalysis env shots store now) now =
      store ++ [(⟨(now / 3600) * 3600 - 3600, (now / 3600) * 3600,
        d.summary, d.activities, d.appUsage, now⟩ : WorkSummary)] ∧
    runAnalysis env shots
        (runHourlyPreviousSegmentAnalysis env shots schedule store now) now =
      store ++ [(⟨(now / 3600) * 3600 - 3600, (now / 3600) * 3600,
        d.summary, d.activities, d.appUsage, now⟩ : WorkSummary)] ∧
    (store ++ [(⟨(now / 3600) * 3600 - 3600, (now / 3600) * 3600,
        d.summary, d.activities, d.appUsage, now⟩ : WorkSummary)]).countP
      (fun w : WorkSummary =>
        decide (w.startTime = (now / 3600) * 3600 - 3600) &&
        decide (w.endTime = (now / 3600) * 3600)) = 1 := by
  have hch : 3600 ≤ (now / 3600) * 3600 := by
    have h1 : 1 ≤ now / 3600 := (Nat.one_le_div_iff (by omega)).mpr hnow
    calc 3600 = 1 * 3600 := by omega
    _ ≤ (now / 3600) * 3600 := Nat.mul_le_mul_right 3600 h1
  have hlt : (now / 3600) * 3600 - 3600 < (now / 3600) * 3600 := by omega
  have hap : (AnalyzePeriod env shots now store ((now / 3600) * 3600 - 3600)
      ((now / 3600) * 3600)).2 =
      store ++ [(⟨(now / 3600) * 3600 - 3600, (now / 3600) * 3600,
        d.summary, d.activities, d.appUsage, now⟩ : WorkSummary)] := by
    simp only [AnalyzePeriod, hcap, Bool.false_eq_true, if_false, hllm, hsave, if_true]
  have hrunA : runAnalysis env shots store now =
      store ++ [(⟨(now / 3600) * 3600 - 3600, (now / 3600) * 3600,
        d.summary, d.activities, d.appUsage, now⟩ : WorkSummary)] := by
    rw [runAnalysis, if_neg (by simp [hno]), hap]
  have hw : HasWorkSummaryForRange
      (store ++ [(⟨(now / 3600) * 3600 - 3600, (now / 3600) * 3600,
        d.summary, d.activities, d.appUsage, now⟩ : WorkSummary)])
      ((now / 3600) * 3600 - 3600) ((now / 3600) * 3600) = true := by
    simp only [HasWorkSummaryForRange, List.any_append, List.any_cons,
      List.any_nil, Bool.or_eq_true, Bool.and_eq_true, decide_eq_true_eq]
    right
    left
    omega
  have hcatchup_after : runHourlyPreviousSegmentAnalysis env shots schedule
      (store ++ [(⟨(now / 3600) * 3600 - 3600, (now / 3600) * 3600,
        d.summary, d.activities, d.appUsage, now⟩ : WorkSummary)]) now =
      store ++ [(⟨(now / 3600) * 3600 - 3600, (now / 3600) * 3600,
        d.summary, d.activities, d.appUsage, now⟩ : WorkSummary)] := by
    rcases runHourly_skip_or_append env shots schedule
        (store ++ [(⟨(now / 3600) * 3600 - 3600, (now / 3600) * 3600,
          d.summary, d.activities, d.appUsage, now⟩ : WorkSummary)]) now with
      h | ⟨hfalse, _⟩
    · exact h
    · rw [hw] at hfalse
      cases hfalse
  have hcount : (store ++ [(⟨(now / 3600) * 3600 - 3600, (now / 3600) * 3600,
        d.summary, d.activities, d.appUsage, now⟩ : WorkSummary)]).countP
      (fun w : WorkSummary =>
        decide (w.startTime = (now / 3600) * 3600 - 3600) &&
        decide (w.endTime = (now / 3600) * 3600)) = 1 := by
    rw [List.countP_append]
    have hz : store.countP
        (fun w : WorkSummary =>
          decide (w.startTime = (now / 3600) * 3600 - 3600) &&
          decide (w.endTime = (now / 3600) * 3600)) = 0 := by
      rw [List.countP_eq_zero]
      intro a ha hpa
      simp only [Bool.and_eq_true, decide_eq_true_eq] at hpa
      have hfalse := List.any_eq_false.mp hno a ha
      rw [hpa.1] at hfalse
      simp [hlt] at hfalse
    rw [hz]
    simp [List.countP_cons]
  refine ⟨?_, ?_, hcount⟩
  · rw [hrunA, hcatchup_after]
  · rcases runHourly_skip_or_append env shots schedule store now with h | ⟨_, h⟩
    · rw [h, hrunA]
    · rw [h, hap, runAnalysis, if_pos (by simp [hw])]

/-- Witness for `periodic_catchup_idempotent`: 08:05 on day 1, an empty
store, one capture in the previous-hour window and an always-successful
collaborator. -/
theorem periodic_catchup_idempotent_witness :
    (3600 ≤ 115500 ∧
      HasWorkSummaryForRange [] ((115500 / 3600) * 3600 - 3600)
        ((115500 / 3600) * 3600) = false ∧
      (GetScreenshots [⟨112000⟩] ((115500 / 3600) * 3600 - 3600)
        ((115500 / 3600) * 3600)).isEmpty = false) ∧
    (runHourlyPreviousSegmentAnalysis
        ⟨fun _ _ => some ⟨"s", [], []⟩, fun _ => true⟩ [⟨112000⟩]
        ⟨"07:00", "18:00", [1], 60, true⟩
        (runAnalysis ⟨fun _ _ => some ⟨"s", [], []⟩, fun _ => true⟩
          [⟨112000⟩] [] 115500)
        115500 =
      [] ++ [(⟨(115500 / 3600) * 3600 - 3600, (115500 / 3600) * 3600,
        "s", [], [], 115500⟩ : WorkSummary)] ∧
    runAnalysis ⟨fun _ _ => some ⟨"s", [], []⟩, fun _ => true⟩ [⟨112000⟩]
        (runHourlyPreviousSegmentAnalysis
          ⟨fun _ _ => some ⟨"s", [], []⟩, fun _ => true⟩ [⟨112000⟩]
          ⟨"07:00", "18:00", [1], 60, true⟩ [] 115500)
        115500 =
      [] ++ [(⟨(115500 / 3600) * 3600 - 3600, (115500 / 3600) * 3600,
        "s", [], [], 115500⟩ : WorkSummary)] ∧
    (([] : List WorkSummary) ++
        [(⟨(115500 / 3600) * 3600 - 3600, (115500 / 3600) * 3600,
          "s", [], [], 115500⟩ : WorkSummary)]).countP
      (fun w : WorkSummary =>
        decide (w.startTime = (115500 / 3600) * 3600 - 3600) &&
        decide (w.endTime = (115500 / 3600) * 3600)) = 1) :=
  ⟨⟨by decide, by decide, by decide⟩,
    periodic_catchup_idempotent
      ⟨fun _ _ => some ⟨"s", [], []⟩, fun _ => true⟩ [⟨112000⟩]
      ⟨"07:00", "18:00", [1], 60, true⟩ [] 115500 ⟨"s", [], []⟩
      (by decide) (by decide) (by decide) rfl rfl⟩

/-- C5 counterexample: the hourly catch-up job IS skipped merely because
`ScheduleConfig.enabled` is false.  At 08:05 on day 1 the previous-hour
window `[111600, 115200)` lies inside the configured `07:00`–`18:00` work
window, captures exist in the window, no summary exists, and the
collaborator would succeed — yet with `enabled = false` the job persists
nothing. -/
theorem catchup_disabled_skip_cex :
    runHourlyPreviousSegmentAnalysis
      ⟨fun _ _ => some ⟨"s", [], []⟩, fun _ => true⟩ [⟨112000⟩]
      ⟨"07:00", "18:00", [1], 60, false⟩ [] 115500 = [] ∧
    (86400 + 7 * 3600 ≤ 111600 ∧ 115200 ≤ 86400 + 18 * 3600) ∧
    (GetScreenshots [⟨112000⟩] 111600 115200).isEmpty = false ∧
    HasWorkSummaryForRange [] 111600 115200 = false := by
  refine ⟨rfl, by decide, by decide, rfl⟩

/-- C5 (amended): the hourly catch-up job is skipped entirely when
`ScheduleConfig.enabled` is false — nothing is persisted even when every
other condition favors analysis.  When schedule restrictions are enabled
and the configured work times parse (and given a collaborator that
succeeds on the previous-hour window), the job persists the window's
summary exactly when the window lies inside today's work window — the
source's checks: window end at or before `workEnd`, window end and window
start at or after `workStart` — no summary already starts in the window,
and the window contains capture records; in every other case, in
particular whenever the range query finds no captures (so the analysis
collaborator is never invoked on an empty span), the store is unchanged. -/
theorem runHourly_characterization (env : AnalysisEnv) (shots : List Screenshot)
    (schedule : WorkSchedule) (store : List WorkSummary) (now sh sm eh em : Nat)
    (d : SummaryData)
    (hnow : 3600 ≤ now)
    (hs : parseHM schedule.startTime = some (sh, sm))
    (he : parseHM schedule.endTime = some (eh, em))
    (hllm : env.llm ((now / 3600) * 3600 - 3600) ((now / 3600) * 3600) = some d)
    (hsave : env.saveOk ⟨(now / 3600) * 3600 - 3600, (now / 3600) * 3600,
      d.summary, d.activities, d.appUsage, now⟩ = true) :
    (schedule.enabled = false →
      runHourlyPreviousSegmentAnalysis env shots schedule store now = store) ∧
    (schedule.enabled = true →
      runHourlyPreviousSegmentAnalysis env shots schedule store now =
        if ((now / 3600) * 3600 ≤ (now / 86400) * 86400 + eh * 3600 + em * 60 ∧
            (now / 86400) * 86400 + sh * 3600 + sm * 60 ≤ (now / 3600) * 3600 ∧
            (now / 86400) * 86400 + sh * 3600 + sm * 60 ≤
              (now / 3600) * 3600 - 3600 ∧
            HasWorkSummaryForRange store ((now / 3600) * 3600 - 3600)
              ((now / 3600) * 3600) = false ∧
            (GetScreenshots shots ((now / 3600) * 3600 - 3600)
              ((now / 3600) * 3600)).isEmpty = false)
        then store ++ [(⟨(now / 3600) * 3600 - 3600, (now / 3600) * 3600,
          d.summary, d.activities, d.appUsage, now⟩ : WorkSummary)]
        else store) := by
  constructor
  · intro hoff
    simp [runHourlyPreviousSegmentAnalysis, hoff]
  · intro hon
    simp only [runHourlyPreviousSegmentAnalysis, hon, Bool.not_true,
      Bool.false_eq_true, if_false, hs, he]
    by_cases h1 : (now / 86400) * 86400 + eh * 3600 + em * 60 < (now / 3600) * 3600
    · rw [if_pos h1, if_neg (by rintro ⟨ha, -⟩; omega)]
    · rw [if_neg h1]
      by_cases h2a : (now / 3600) * 3600 <
          (now / 86400) * 86400 + sh * 3600 + sm * 60
      · rw [if_pos (by simp [h2a]), if_neg (by rintro ⟨-, hb, -⟩; omega)]
      · by_cases h2b : (now / 3600) * 3600 - 3600 <
            (now / 86400) * 86400 + sh * 3600 + sm * 60
        · rw [if_pos (by simp [h2b]), if_neg (by rintro ⟨-, -, hc, -⟩; omega)]
        · rw [if_neg (by simp [h2a, h2b])]
          by_cases h3 : HasWorkSummaryForRange store ((now / 3600) * 3600 - 3600)
              ((now / 3600) * 3600) = true
          · rw [if_pos h3, if_neg (by rintro ⟨-, -, -, hd, -⟩; rw [h3] at hd; cases hd)]
          · rw [if_neg h3]
            by_cases h4 : ((GetScreenshots shots ((now / 3600) * 3600 - 3600)
                ((now / 3600) * 3600)).isEmpty : Prop)
            · rw [if_pos h4,
                if_neg (by rintro ⟨-, -, -, -, hee⟩; rw [hee] at h4; cases h4)]
            · rw [if_neg h4,
                if_pos ⟨by omega, by omega, by omega, by simpa using h3,
                  by simpa using h4⟩]
              simp only [AnalyzePeriod, Bool.eq_false_iff.mpr h4,
                Bool.false_eq_true, if_false, hllm, hsave, if_true]

/-- Witness for `runHourly_characterization`: the enabled `07:00`–`18:00`
schedule at 08:05 on day 1 with one capture in the window. -/
theorem runHourly_characterization_witness :
    (parseHM "07:00" = some (7, 0) ∧ parseHM "18:00" = some (18, 0)) ∧
    (((⟨"07:00", "18:00", [1], 60, true⟩ : WorkSchedule).enabled = false →
      runHourlyPreviousSegmentAnalysis
        ⟨fun _ _ => some ⟨"s", [], []⟩, fun _ => true⟩ [⟨112000⟩]
        ⟨"07:00", "18:00", [1], 60, true⟩ [] 115500 = []) ∧
    ((⟨"07:00", "18:00", [1], 60, true⟩ : WorkSchedule).enabled = true →
      runHourlyPreviousSegmentAnalysis
        ⟨fun _ _ => some ⟨"s", [], []⟩, fun _ => true⟩ [⟨112000⟩]
        ⟨"07:00", "18:00", [1], 60, true⟩ [] 115500 =
        if ((115500 / 3600) * 3600 ≤ (115500 / 86400) * 86400 + 18 * 3600 + 0 * 60 ∧
            (115500 / 86400) * 86400 + 7 * 3600 + 0 * 60 ≤ (115500 / 3600) * 3600 ∧
            (115500 / 86400) * 86400 + 7 * 3600 + 0 * 60 ≤
              (115500 / 3600) * 3600 - 3600 ∧
            HasWorkSummaryForRange [] ((115500 / 3600) * 3600 - 3600)
              ((115500 / 3600) * 3600) = false ∧
            (GetScreenshots [⟨112000⟩] ((115500 / 3600) * 3600 - 3600)
              ((115500 / 3600) * 3600)).isEmpty = false)
        then [] ++ [(⟨(115500 / 3600) * 3600 - 3600, (115500 / 3600) * 3600,
          "s", [], [], 115500⟩ : WorkSummary)]
        else [])) :=
  ⟨⟨by decide, by decide⟩,
    runHourly_characterization
      ⟨fun _ _ => some ⟨"s", [], []⟩, fun _ => true⟩ [⟨112000⟩]
      ⟨"07:00", "18:00", [1], 60, true⟩ [] 115500 7 0 18 0 ⟨"s", [], []⟩
      (by decide) (by decide) (by decide) rfl rfl⟩

/-! ### The per-segment outcome of the regeneration loop -/

/-- The record one segment contributes to the store when processed
(`none` when processing it fails and aborts the loop): the placeholder
for a data-less segment (when the persistence collaborator accepts it),
the analysis collaborator's persisted record otherwise. -/
def segOutcome (env : AnalysisEnv) (shots : List Screenshot) (now : Nat)
    (seg : Segment) : Option WorkSummary :=
  if !seg.hasData then
    if env.saveOk (emptyPlaceholder seg now) then some (emptyPlaceholder seg now)
    else none
  else (AnalyzePeriod env shots now [] seg.segStart seg.segEnd).1

lemma AnalyzePeriod_store (env : AnalysisEnv) (shots : List Screenshot)
    (now : Nat) (store : List WorkSummary) (s e : Nat) :
    AnalyzePeriod env shots now store s e =
      ((AnalyzePeriod env shots now [] s e).1,
       store ++ ((AnalyzePeriod env shots now [] s e).1).toList) := by
  simp only [AnalyzePeriod]
  by_cases hempty : ((GetScreenshots shots s e).isEmpty : Prop)
  · simp [hempty]
  · simp only [hempty, if_false, if_neg hempty]
    match env.llm s e with
    | none => simp
    | some d =>
      by_cases hsv : env.saveOk ⟨s, e, d.summary, d.activities, d.appUsage, now⟩
      · simp [hsv]
      · simp [hsv]

lemma analyzeSegments_spec (env : AnalysisEnv) (shots : List Screenshot)
    (now : Nat) :
    ∀ (segs : List Segment) (store : List WorkSummary),
      analyzeSegments env shots now store segs =
        (store ++
          ((segs.takeWhile fun s => (segOutcome env shots now s).isSome).filterMap
            (segOutcome env shots now)),
         segs.all fun s => (segOutcome env shots now s).isSome) := by
  intro segs
  induction segs with
  | nil => intro store; simp [analyzeSegments]
  | cons seg rest ih =>
    intro store
    simp only [analyzeSegments]
    by_cases hd : seg.hasData
    · have hnd : (!seg.hasData) = false := by simp [hd]
      rw [hnd]
      simp only [Bool.false_eq_true, if_false]
      have hout : segOutcome env shots now seg =
          (AnalyzePeriod env shots now [] seg.segStart seg.segEnd).1 := by
        simp [segOutcome, hd]
      rw [AnalyzePeriod_store env shots now store seg.segStart seg.segEnd]
      match hap : (AnalyzePeriod env shots now [] seg.segStart seg.segEnd).1 with
      | some w =>
        show analyzeSegments env shots now (store ++ (some w).toList) rest = _
        rw [ih (store ++ (some w).toList)]
        rw [List.takeWhile_cons, List.all_cons, hout, hap]
        simp [List.filterMap_cons, hout, hap]
      | none =>
        show (store ++ (none : Option WorkSummary).toList, false) = _
        rw [List.takeWhile_cons, List.all_cons, hout, hap]
        simp
    · have hnd : (!seg.hasData) = true := by simp [hd]
      rw [hnd]
      simp only [if_true]
      have hout : segOutcome env shots now seg =
          (if env.saveOk (emptyPlaceholder seg now)
           then some (emptyPlaceholder seg now) else none) := by
        simp [segOutcome, hd]
      by_cases hsv : env.saveOk (emptyPlaceholder seg now)
      · rw [if_pos hsv, ih (store ++ [emptyPlaceholder seg now])]
        rw [List.takeWhile_cons, List.all_cons, hout, if_pos hsv]
        simp [List.filterMap_cons, hout, if_pos hsv]
      · rw [if_neg hsv]
        rw [List.takeWhile_cons, List.all_cons, hout, if_neg hsv]
        simp

/-- C7: the on-demand regeneration.  (i) For a non-empty day the result
store is exactly today's summaries deleted, then extended — in segment
order — with the records of the longest prefix of segments that processed
successfully, and the success flag is set iff every segment succeeded: the
operation stops at the first persistence or collaborator failure while
records of segments completed before the failure remain persisted (an
at-least-once partial write, not a transaction).  (ii) The deletion keeps
exactly the records not dated today.  (iii) A `hasData = false` segment
contributes the fixed placeholder — sentinel text `"暂无截屏内容"`, empty
activity and app-usage collections — accepted or rejected only by the
persistence collaborator, and its outcome is unchanged under any
replacement of the analysis collaborator (no collaborator call).  (iv) A
`hasData = true` segment's record, when produced, covers exactly the
segment's window. -/
theorem handleAnalyzeNow_spec (env : AnalysisEnv)
    (g : Nat → Nat → Option SummaryData) (shots : List Screenshot)
    (analysisInterval : Int) (now : Nat) (store : List WorkSummary)
    (seg : Segment) (w : WorkSummary) :
    (shots.isEmpty = false →
      handleAnalyzeNow env shots analysisInterval now store =
        (DeleteWorkSummariesForDate store now ++
          (((planSegments analysisInterval shots).takeWhile
            fun s => (segOutcome env shots now s).isSome).filterMap
              (segOutcome env shots now)),
         (planSegments analysisInterval shots).all
           fun s => (segOutcome env shots now s).isSome)) ∧
    (w ∈ DeleteWorkSummariesForDate store now ↔
      w ∈ store ∧ ¬((now / 86400) * 86400 ≤ w.startTime ∧
        w.startTime < (now / 86400) * 86400 + 86400)) ∧
    (seg.hasData = false →
      segOutcome env shots now seg =
        (if env.saveOk (emptyPlaceholder seg now)
         then some (emptyPlaceholder seg now) else none) ∧
      segOutcome ⟨g, env.saveOk⟩ shots now seg = segOutcome env shots now seg ∧
      (emptyPlaceholder seg now).summary = "暂无截屏内容" ∧
      (emptyPlaceholder seg now).activities = [] ∧
      (emptyPlaceholder seg now).appUsage = []) ∧
    (seg.hasData = true → segOutcome env shots now seg = some w →
      w.startTime = seg.segStart ∧ w.endTime = seg.segEnd) := by
  refine ⟨?_, ?_, ?_, ?_⟩
  · intro hne
    simp only [handleAnalyzeNow, hne, Bool.false_eq_true, if_false]
    exact analyzeSegments_spec env shots now (planSegments analysisInterval shots)
      (DeleteWorkSummariesForDate store now)
  · simp only [DeleteWorkSummariesForDate, List.mem_filter]
    constructor
    · rintro ⟨hmem, hflt⟩
      refine ⟨hmem, fun hc => ?_⟩
      rw [decide_eq_true hc.1, decide_eq_true hc.2] at hflt
      simp at hflt
    · rintro ⟨hmem, hnot⟩
      refine ⟨hmem, ?_⟩
      by_cases ha : (now / 86400) * 86400 ≤ w.startTime
      · by_cases hb : w.startTime < (now / 86400) * 86400 + 86400
        · exact absurd ⟨ha, hb⟩ hnot
        · simp [decide_eq_false hb]
      · simp [decide_eq_false ha]
  · intro hd
    refine ⟨by simp [segOutcome, hd], by simp [segOutcome, hd], rfl, rfl, rfl⟩
  · intro hd hsome
    simp only [segOutcome, hd, Bool.not_true, Bool.false_eq_true, if_false] at hsome
    simp only [AnalyzePeriod] at hsome
    by_cases hempty : ((GetScreenshots shots seg.segStart seg.segEnd).isEmpty : Prop)
    · simp [hempty] at hsome
    · have hef : (GetScreenshots shots seg.segStart seg.segEnd).isEmpty = false :=
        Bool.eq_false_iff.mpr hempty
      simp only [hef, Bool.false_eq_true, if_false] at hsome
      match hllm : env.llm seg.segStart seg.segEnd with
      | none => rw [hllm] at hsome; simp at hsome
      | some dd =>
        rw [hllm] at hsome
        by_cases hsv : (env.saveOk ⟨seg.segStart, seg.segEnd, dd.summary,
            dd.activities, dd.appUsage, now⟩ : Prop)
        · simp only [hsv, if_true, Option.some.injEq] at hsome
          subst hsome
          exact ⟨rfl, rfl⟩
        · have hsf : env.saveOk ⟨seg.segStart, seg.segEnd, dd.summary,
              dd.activities, dd.appUsage, now⟩ = false :=
            Bool.eq_false_iff.mpr hsv
          simp [hsf] at hsome

/-- Witness for `handleAnalyzeNow_spec`: one capture at 09:03 on day 1 at
17:50, a store with one yesterday record, an always-successful
collaborator; the conjuncts are discharged for the day's real segment
(`hasData = true`), for a data-less segment, and for the yesterday
record surviving the deletion. -/
theorem handleAnalyzeNow_spec_witness :
    (([(⟨118980⟩ : Screenshot)].isEmpty = false) ∧
      (⟨122400, 126000, false⟩ : Segment).hasData = false ∧
      (⟨118980, 118980, true⟩ : Segment).hasData = true ∧
      segOutcome ⟨fun _ _ => some ⟨"x", [], []⟩, fun _ => true⟩ [⟨118980⟩] 150600
        ⟨118980, 118980, true⟩ =
        some ⟨118980, 118980, "x", [], [], 150600⟩) ∧
    (handleAnalyzeNow ⟨fun _ _ => some ⟨"x", [], []⟩, fun _ => true⟩ [⟨118980⟩]
        60 150600 [⟨50000, 51000, "y", [], [], 0⟩] =
      (DeleteWorkSummariesForDate [⟨50000, 51000, "y", [], [], 0⟩] 150600 ++
        (((planSegments 60 [⟨118980⟩]).takeWhile
          fun s => (segOutcome ⟨fun _ _ => some ⟨"x", [], []⟩, fun _ => true⟩
            [⟨118980⟩] 150600 s).isSome).filterMap
            (segOutcome ⟨fun _ _ => some ⟨"x", [], []⟩, fun _ => true⟩
              [⟨118980⟩] 150600)),
       (planSegments 60 [⟨118980⟩]).all
         fun s => (segOutcome ⟨fun _ _ => some ⟨"x", [], []⟩, fun _ => true⟩
           [⟨118980⟩] 150600 s).isSome)) ∧
    ((⟨50000, 51000, "y", [], [], 0⟩ : WorkSummary) ∈
        DeleteWorkSummariesForDate [⟨50000, 51000, "y", [], [], 0⟩] 150600 ↔
      (⟨50000, 51000, "y", [], [], 0⟩ : WorkSummary) ∈
          [(⟨50000, 51000, "y", [], [], 0⟩ : WorkSummary)] ∧
        ¬((150600 / 86400) * 86400 ≤ 50000 ∧
          50000 < (150600 / 86400) * 86400 + 86400)) ∧
    (segOutcome ⟨fun _ _ => some ⟨"x", [], []⟩, fun _ => true⟩ [⟨118980⟩] 150600
        ⟨122400, 126000, false⟩ =
      (if (fun (_ : WorkSummary) => true)
          (emptyPlaceholder ⟨122400, 126000, false⟩ 150600)
       then some (emptyPlaceholder ⟨122400, 126000, false⟩ 150600) else none) ∧
      segOutcome ⟨fun _ _ => none, fun _ => true⟩ [⟨118980⟩] 150600
        ⟨122400, 126000, false⟩ =
        segOutcome ⟨fun _ _ => some ⟨"x", [], []⟩, fun _ => true⟩ [⟨118980⟩]
          150600 ⟨122400, 126000, false⟩ ∧
      (emptyPlaceholder ⟨122400, 126000, false⟩ 150600).summary = "暂无截屏内容" ∧
      (emptyPlaceholder ⟨122400, 126000, false⟩ 150600).activities = [] ∧
      (emptyPlaceholder ⟨122400, 126000, false⟩ 150600).appUsage = []) ∧
    ((⟨118980, 118980, "x", [], [], 150600⟩ : WorkSummary).startTime = 118980 ∧
      (⟨118980, 118980, "x", [], [], 150600⟩ : WorkSummary).endTime = 118980) :=
  ⟨⟨rfl, rfl, rfl, by decide⟩,
    (handleAnalyzeNow_spec ⟨fun _ _ => some ⟨"x", [], []⟩, fun _ => true⟩
      (fun _ _ => none) [⟨118980⟩] 60 150600 [⟨50000, 51000, "y", [], [], 0⟩]
      ⟨122400, 126000, false⟩ ⟨50000, 51000, "y", [], [], 0⟩).1 rfl,
    (handleAnalyzeNow_spec ⟨fun _ _ => some ⟨"x", [], []⟩, fun _ => true⟩
      (fun _ _ => none) [⟨118980⟩] 60 150600 [⟨50000, 51000, "y", [], [], 0⟩]
      ⟨122400, 126000, false⟩ ⟨50000, 51000, "y", [], [], 0⟩).2.1,
    (handleAnalyzeNow_spec ⟨fun _ _ => some ⟨"x", [], []⟩, fun _ => true⟩
      (fun _ _ => none) [⟨118980⟩] 60 150600 [⟨50000, 51000, "y", [], [], 0⟩]
      ⟨122400, 126000, false⟩ ⟨50000, 51000, "y", [], [], 0⟩).2.2.1 rfl,
    (handleAnalyzeNow_spec ⟨fun _ _ => some ⟨"x", [], []⟩, fun _ => true⟩
      (fun _ _ => none) [⟨118980⟩] 60 150600 [⟨50000, 51000, "y", [], [], 0⟩]
      ⟨118980, 118980, true⟩ ⟨118980, 118980, "x", [], [], 150600⟩).2.2.2
      rfl (by decide)⟩

end WorkTracker
